import Mathlib

/-!
Verification development for the knowledge-graph-3d repository.

The repository contains two viewers:
  * `src/unnamed/part_000` (a force-directed viewer, `graph.js`), whose
    `transformAndInitGraph` implements the full Graph Data Adapter
    (entity→node mapping, `contains` link synthesis, per-document `next`
    chunk chains) and whose `highlightNode`/`resetView`/`displayNodeInfo`
    implement scale-based highlighting and the info panel;
  * `src/js/ar-graph.js` (AR/3D viewer), whose `createGraph` implements a
    reduced link synthesis (document containment only, links carry no
    `type` field), plus touch/mouse input handling (`setup3DControls`,
    `handleTouchStart/Move/End`), selection (`onNodeSelect`, `resetView`),
    zoom clamping (`handleTouchMove`, `zoomIn`, `zoomOut`) and an info
    panel (`displayNodeInfo`).

JavaScript values appearing in entity `properties` objects are modelled by
the `JsValue` inductive; numbers are modelled as rationals, and the
platform built-ins `Math.cos` / `Math.sin` / `Math.random` /
`Math.sqrt`-based distances are abstracted as function parameters where
they occur.
-/

namespace KG

/-- Model of a JSON/JavaScript value as stored in an entity's `properties`
object: strings, numbers (as rationals), booleans, null, arrays and
objects (association lists, keys unique as produced by JSON parsing). -/
inductive JsValue where
  | str (s : String)
  | num (q : ℚ)
  | bool (b : Bool)
  | null
  | arr (elems : List JsValue)
  | obj (fields : List (String × JsValue))

/-- Model of an entity record of the input JSON:
`{id, label, type, properties, source_doc}`.  Absent fields are `none`
(`label` absent is modelled as `none` as well, matching JS `undefined`). -/
structure Entity where
  id : String
  label : Option String := none
  type : String := ""
  properties : Option (List (String × JsValue)) := none
  source_doc : Option String := none

/-- Model of a relationship record of the input JSON:
`{source, target, type}` with `type` optional. -/
structure Rel where
  source : String
  target : String
  type : Option String := none
deriving DecidableEq, Repr

/-- Model of the parsed JSON document handed to the adapters:
`data.entities || []` and `data.relationships || []` are modelled by
defaulting the arrays to `[]`, so both structures carry plain lists. -/
structure GraphData where
  entities : List Entity := []
  relationships : List Rel := []

/-- Lookup of `entity.properties[key]`: `none` when `properties` itself is
absent or the key is missing. -/
def propLookup (e : Entity) (key : String) : Option JsValue :=
  match e.properties with
  | none => none
  | some ps => ps.lookup key

/-- Model of the truthiness test `entity.properties && entity.properties.document_id`
followed by use of the value as a link endpoint id.  A present, non-empty
string passes; an absent key, absent `properties` object, or the falsy
empty string fail.  Non-string `document_id` values (not produced by this
repository's data) are outside the model. -/
def entityDocId (e : Entity) : Option String :=
  match propLookup e "document_id" with
  | some (JsValue.str s) => if s = "" then none else some s
  | _ => none

/-- Model of `a.properties.chunk_index || 0` as used by the chunk sort
comparator: a numeric `chunk_index` is used as is (`0` is falsy in JS but
`0 || 0 = 0`, so the result agrees), anything else defaults to `0`. -/
def effChunkIndex (e : Entity) : ℚ :=
  match propLookup e "chunk_index" with
  | some (JsValue.num q) => q
  | _ => 0

end KG

namespace ForceGraph

open KG

/-- Link record produced by `transformAndInitGraph` in `part_000`:
`{source, target, type}` with `type` always set. -/
structure Link where
  source : String
  target : String
  type : String
deriving DecidableEq, Repr

/-- Model of the truthy default `rel.type || 'connects'` of
`transformAndInitGraph` (an absent or empty-string type becomes
`"connects"`). -/
def relType (r : Rel) : String :=
  match r.type with
  | some t => if t = "" then "connects" else t
  | none => "connects"

/-- Model of the first synthesis loop of `transformAndInitGraph`
(lines 79–87 of `part_000`): one `contains` link per entity with a truthy
`properties.document_id`, from that document id to the entity, in entity
order. -/
def containsLinks (entities : List Entity) : List Link :=
  entities.filterMap fun e =>
    (entityDocId e).map fun d => Link.mk d e.id "contains"

/-- Membership test of the `chunksByDoc` grouping of
`transformAndInitGraph` (lines 90–99): the entity is of type `Chunk` and
has a truthy `properties.document_id`. -/
def chunkDocId (e : Entity) : Option String :=
  if e.type = "Chunk" then entityDocId e else none

/-- Group of chunks collected under document id `d` by `chunksByDoc`, in
entity order (JS array push order). -/
def chunkGroup (entities : List Entity) (d : String) : List Entity :=
  entities.filter fun e => chunkDocId e = some d

/-- Keys of the `chunksByDoc` object in first-insertion order, as iterated
by `Object.values` (JS objects preserve string-key insertion order). -/
def docKeys (entities : List Entity) : List String :=
  entities.foldl
    (fun acc e =>
      match chunkDocId e with
      | some d => if d ∈ acc then acc else acc ++ [d]
      | none => acc)
    []

/-- Sort comparator `(a, b) => (a.properties.chunk_index || 0) - (b.properties.chunk_index || 0)`
viewed as the ordering it induces on entities. -/
def chunkLE (a b : Entity) : Prop :=
  effChunkIndex a ≤ effChunkIndex b

instance : DecidableRel chunkLE := fun a b =>
  inferInstanceAs (Decidable (effChunkIndex a ≤ effChunkIndex b))

instance : IsTotal Entity chunkLE :=
  ⟨fun a b => le_total (effChunkIndex a) (effChunkIndex b)⟩

instance : IsTrans Entity chunkLE :=
  ⟨fun _ _ _ hab hbc => le_trans hab hbc⟩

/-- Model of `chunks.sort(comparator)` (lines 103–107): a stable sort of
the group by `chunk_index || 0` (ECMAScript `Array.prototype.sort` is
required to be stable; insertion sort realises a stable correct sort). -/
def sortChunks (g : List Entity) : List Entity :=
  List.insertionSort chunkLE g

/-- Model of the sequential-connection loop (lines 109–115): a `next` link
between each pair of consecutive chunks of the sorted group. -/
def consecutiveNextLinks : List Entity → List Link
  | a :: b :: rest => Link.mk a.id b.id "next" :: consecutiveNextLinks (b :: rest)
  | _ => []

/-- Synthesised `next` links of `transformAndInitGraph`: for each document
group in key-insertion order, the consecutive links of the sorted group. -/
def nextLinks (entities : List Entity) : List Link :=
  (docKeys entities).flatMap fun d =>
    consecutiveNextLinks (sortChunks (chunkGroup entities d))

/-- Model of the link construction of `transformAndInitGraph`
(lines 67–117 of `part_000`): explicit relationships are mapped through
when the array is non-empty, otherwise `contains` and `next` links are
synthesised. -/
def transformLinks (data : GraphData) : List Link :=
  if data.relationships.length > 0 then
    data.relationships.map fun r => Link.mk r.source r.target (relType r)
  else
    containsLinks data.entities ++ nextLinks data.entities

end ForceGraph

namespace ArGraph

open KG

/-- Model of the link construction of `createGraph` in `ar-graph.js`
(lines 272–285): explicit relationships are used as is when the array is
non-empty; otherwise one synthesised link per entity with a truthy
`properties.document_id`, from the document id to the entity, carrying no
`type` field (`type = none`).  No chunk-chain links are synthesised. -/
def createGraphLinks (data : GraphData) : List Rel :=
  if data.relationships.length > 0 then
    data.relationships
  else
    data.entities.filterMap fun e =>
      (entityDocId e).map fun d => Rel.mk d e.id none

/-- Ids of the nodes created by `createGraph`'s entity loop; `nodeMap` is
keyed by `entity.id`, so a link endpoint resolves exactly when some entity
carries that id. -/
def nodeIds (entities : List Entity) : List String :=
  entities.map Entity.id

/-- Model of the edge-construction loop of `createGraph` (lines 287–303):
a line object is created for a link exactly when both `nodeMap.get` lookups
succeed; otherwise the link is skipped with no error and no report.  The
function is total: every input yields an edge list. -/
def createGraphEdges (data : GraphData) : List Rel :=
  (createGraphLinks data).filter fun l =>
    (nodeIds data.entities).contains l.source &&
      (nodeIds data.entities).contains l.target

/-- Per-node visual attributes touched by selection: the material's
`emissiveIntensity` and the (uniform) mesh scale set via
`scale.set(s, s, s)`. -/
structure Visual where
  emissiveIntensity : ℚ
  scale : ℚ
deriving DecidableEq, Repr

/-- Baseline visual of a node as created by `createGraph`
(`emissiveIntensity: 0.3`, scale `1`). -/
def baselineVisual : Visual := ⟨3/10, 1⟩

/-- Highlighted visual applied by `onNodeSelect`
(`emissiveIntensity = 0.8`, `scale.set(1.5, 1.5, 1.5)`). -/
def highlightVisual : Visual := ⟨4/5, 3/2⟩

/-- Whether a visual is in the highlighted state of the specification:
raised emissive intensity and enlarged scale relative to baseline. -/
def isHighlighted (v : Visual) : Bool :=
  baselineVisual.emissiveIntensity < v.emissiveIntensity &&
    baselineVisual.scale < v.scale

/-- State of the selection component of `ar-graph.js`: the visuals of the
`n` node meshes and the `selectedNode` module variable (`none` models
JavaScript `null`). -/
structure SelState (n : ℕ) where
  visual : Fin n → Visual
  selected : Option (Fin n)

/-- State right after `createGraph`: every node at baseline, nothing
selected. -/
def initSelState (n : ℕ) : SelState n :=
  ⟨fun _ => baselineVisual, none⟩

/-- Model of `onNodeSelect` (lines 558–582 of `ar-graph.js`): revert the
previously selected node (if any) to baseline, then set the new node's
highlight and record it in `selectedNode`.  The transient white colour
flash (reverted by a 300 ms timeout) is not part of the highlighted state
and is not modelled. -/
def onNodeSelect {n : ℕ} (s : SelState n) (i : Fin n) : SelState n :=
  let v :=
    match s.selected with
    | some j => Function.update s.visual j baselineVisual
    | none => s.visual
  ⟨Function.update v i highlightVisual, some i⟩

/-- Model of the selection part of `resetView` (lines 711–728): if a node
is selected, revert it to baseline and clear `selectedNode`. -/
def resetView {n : ℕ} (s : SelState n) : SelState n :=
  match s.selected with
  | some j => ⟨Function.update s.visual j baselineVisual, none⟩
  | none => s

/-- Operations of the selection component reachable from user input:
selecting a node (tap / click / controller hit resolved to node `i`) and
the explicit reset. -/
inductive SelOp (n : ℕ) where
  | select (i : Fin n)
  | reset

/-- One step of the selection component. -/
def stepSel {n : ℕ} (s : SelState n) : SelOp n → SelState n
  | SelOp.select i => onNodeSelect s i
  | SelOp.reset => resetView s

/-- Run of the selection component from the initial state. -/
def runSel (n : ℕ) (ops : List (SelOp n)) : SelState n :=
  ops.foldl stepSel (initSelState n)

/-- Strong selection invariant: every node's visual is determined by
whether it is the selected node. -/
def SelInv {n : ℕ} (s : SelState n) : Prop :=
  ∀ j, s.visual j = if s.selected = some j then highlightVisual else baselineVisual

end ArGraph

namespace KG

mutual

/-- JavaScript `String(value)` coercion as used by template literals and
by `Array.prototype.join`: strings pass through, numbers print (decimal
formatting of the platform is modelled by the rational's `toString`),
booleans and `null` print their keywords, arrays join their elements with
`","`, plain objects print `"[object Object]"`. -/
def jsToString : JsValue → String
  | JsValue.str s => s
  | JsValue.num q => toString q
  | JsValue.bool b => cond b "true" "false"
  | JsValue.null => "null"
  | JsValue.arr xs => jsArrJoin "," xs
  | JsValue.obj _ => "[object Object]"

/-- JavaScript `Array.prototype.join(sep)`: elements are coerced with
`String(·)` except `null`, which joins as the empty string. -/
def jsArrJoin (sep : String) : List JsValue → String
  | [] => ""
  | [JsValue.null] => ""
  | [x] => jsToString x
  | JsValue.null :: y :: xs => sep ++ jsArrJoin sep (y :: xs)
  | x :: y :: xs => jsToString x ++ sep ++ jsArrJoin sep (y :: xs)

end

/-- Quoting of a string for JSON output, escaping backslash and double
quote (other escape classes do not occur in this development's inputs). -/
def jsonQuote (s : String) : String :=
  "\"" ++ String.join (s.toList.map fun c =>
    if c = '"' then "\\\"" else if c = '\\' then "\\\\" else String.singleton c) ++ "\""

mutual

/-- Model of the builtin `JSON.stringify(value, null, 2)` used for nested
object property values: a recursive JSON serialisation.  The builtin's
2-space pretty-printing whitespace is not reproduced; only the serialised
structure is modelled. -/
def jsonStringify : JsValue → String
  | JsValue.str s => jsonQuote s
  | JsValue.num q => toString q
  | JsValue.bool b => cond b "true" "false"
  | JsValue.null => "null"
  | JsValue.arr xs => "[" ++ jsonStringifyElems xs ++ "]"
  | JsValue.obj fs => "\x7b" ++ jsonStringifyFields fs ++ "\x7d"

/-- Comma-separated serialisation of a JSON array's elements. -/
def jsonStringifyElems : List JsValue → String
  | [] => ""
  | [x] => jsonStringify x
  | x :: y :: xs => jsonStringify x ++ "," ++ jsonStringifyElems (y :: xs)

/-- Comma-separated serialisation of a JSON object's fields. -/
def jsonStringifyFields : List (String × JsValue) → String
  | [] => ""
  | [(k, v)] => jsonQuote k ++ ":" ++ jsonStringify v
  | (k, v) :: f :: fs => jsonQuote k ++ ":" ++ jsonStringify v ++ "," ++ jsonStringifyFields (f :: fs)

end

/-- Model of the property-value rendering shared by both viewers'
`displayNodeInfo` functions: arrays are joined with `", "`, non-array
objects (including `null`, for which `typeof` is also `'object'`) go
through `JSON.stringify`, and every other value is coerced with
`String(·)` — in particular a string of any length is rendered verbatim. -/
def displayValue : JsValue → String
  | JsValue.arr xs => jsArrJoin ", " xs
  | JsValue.obj fs => jsonStringify (JsValue.obj fs)
  | JsValue.null => jsonStringify JsValue.null
  | v => jsToString v

end KG

namespace ForceGraph

open KG

/-- Display payload produced by `displayNodeInfo` of `part_000`
(lines 216–264), with the HTML wrapping abstracted away: the type, id and
label lines, the optional source line (present exactly when
`node.source_doc` is truthy), the rendered `key: value` property lines,
and the optional connection count (present exactly when at least one link
touches the node). -/
structure InfoPayload where
  type : String
  id : String
  label : String
  source : Option String
  propertyLines : List (String × String)
  connections : Option ℕ
deriving DecidableEq, Repr

/-- Model of `displayNodeInfo` of `part_000`: the template literal
`${node.label}` renders an absent label as `"undefined"`; the properties
section iterates `Object.entries(node.properties)` in insertion order and
renders each entry through the shared array/object/string value
formatting; the connection count filters the graph's links by endpoint id
(the force-graph library has resolved link endpoints to node objects by
the time this runs, so the comparison `link.source.id === node.id` is an
id comparison). -/
def displayNodeInfo (node : Entity) (links : List Link) : InfoPayload :=
  let k := (links.filter fun l => l.source = node.id || l.target = node.id).length
  { type := node.type
    id := node.id
    label := node.label.getD "undefined"
    source :=
      match node.source_doc with
      | some s => if s = "" then none else some s
      | none => none
    propertyLines :=
      match node.properties with
      | some ps => ps.map fun kv => (kv.1, displayValue kv.2)
      | none => []
    connections := if k > 0 then some k else none }

/-- Model of `highlightNode` of `part_000` (lines 204–214) acting on the
uniform scales of the node meshes: reset every node's scale to `1`, then
set the clicked node's scale to `1.5`.  This viewer's highlight does not
touch emissive intensity and tracks no selected-node variable. -/
def highlightNode {n : ℕ} (_s : Fin n → ℚ) (i : Fin n) : Fin n → ℚ :=
  Function.update (fun _ => (1 : ℚ)) i (3/2)

/-- Model of the scale-reset loop of `resetView` in `part_000`
(lines 273–278): every node back to scale `1`. -/
def resetScales {n : ℕ} (_s : Fin n → ℚ) : Fin n → ℚ :=
  fun _ => 1

/-- Operations on the force-graph viewer's node scales. -/
inductive HlOp (n : ℕ) where
  | highlight (i : Fin n)
  | reset

/-- One step of the force-graph viewer's highlight state. -/
def stepHl {n : ℕ} (s : Fin n → ℚ) : HlOp n → (Fin n → ℚ)
  | HlOp.highlight i => highlightNode s i
  | HlOp.reset => resetScales s

/-- Run of the force-graph viewer's highlight state from the initial
all-ones scales. -/
def runHl (n : ℕ) (ops : List (HlOp n)) : Fin n → ℚ :=
  ops.foldl stepHl fun _ => 1

end ForceGraph

namespace ArGraph

open KG

/-- Screen position of a touch point (`clientX`, `clientY`), as rational
pixel coordinates. -/
def Pos : Type := ℚ × ℚ

instance : DecidableEq Pos := inferInstanceAs (DecidableEq (ℚ × ℚ))

/-- State mutated by the touch handlers installed by `setup3DControls`
(lines 436–556 of `ar-graph.js`), restricted to what those handlers read
and write: the drag flag, the pinch bookkeeping, the graph group's
rotation and scale, the previous touch position, and the selected node. -/
structure Ctrl3DState (n : ℕ) where
  isDragging : Bool := false
  initialPinchDistance : ℚ := 0
  initialScale : ℚ := 1
  rotationX : ℚ := 0
  rotationY : ℚ := 0
  prevX : ℚ := 0
  prevY : ℚ := 0
  scale : ℚ := 1
  selected : Option (Fin n) := none

/-- Touch events reaching the `setup3DControls` listeners.  A `touchend`
event carries the number of touches still active (`e.touches.length`) and
the list of just-lifted touch positions (`e.changedTouches`). -/
inductive TouchEvent where
  | touchstart (touches : List Pos)
  | touchmove (touches : List Pos)
  | touchend (touchesRemaining : ℕ) (changed : List Pos)

/-- Clamp applied to every scale update:
`Math.max(0.1, Math.min(5, newScale))`. -/
def clampScale (x : ℚ) : ℚ :=
  max (1/10) (min 5 x)

/-- One step of the `setup3DControls` touch handlers.  `dist` abstracts
the `Math.sqrt(dx*dx + dy*dy)` pixel distance and `hitTest` abstracts the
raycast `raycaster.intersectObjects(nodes)` from the camera through the
normalised device coordinates of a screen point (returning the nearest
intersected node, if any).  The `touchend` handler clears the drag and
pinch state and then, exactly when no touches remain and exactly one
changed touch exists, raycasts at that touch's position and selects the
hit node; no movement threshold or duration check occurs anywhere. -/
def step3D {n : ℕ} (dist : Pos → Pos → ℚ) (hitTest : Pos → Option (Fin n))
    (s : Ctrl3DState n) : TouchEvent → Ctrl3DState n
  | TouchEvent.touchstart touches =>
    match touches with
    | p0 :: p1 :: rest =>
      if rest.isEmpty then
        { s with initialPinchDistance := dist p0 p1, initialScale := s.scale }
      else s
    | [p0] => { s with isDragging := true, prevX := p0.1, prevY := p0.2 }
    | [] => s
  | TouchEvent.touchmove touches =>
    match touches with
    | p0 :: p1 :: rest =>
      if rest.isEmpty then
        if s.initialPinchDistance ≠ 0 then
          { s with scale := clampScale (s.initialScale * (dist p0 p1 / s.initialPinchDistance)) }
        else s
      else s
    | [p0] =>
      if s.isDragging then
        { s with
          rotationY := s.rotationY + (p0.1 - s.prevX) * (1/100),
          rotationX := s.rotationX + (p0.2 - s.prevY) * (1/100),
          prevX := p0.1, prevY := p0.2 }
      else s
    | [] => s
  | TouchEvent.touchend touchesRemaining changed =>
    let s' := { s with isDragging := false, initialPinchDistance := 0 }
    match touchesRemaining, changed with
    | 0, [p] =>
      match hitTest p with
      | some i => { s' with selected := some i }
      | none => s'
    | _, _ => s'

/-- Run of the `setup3DControls` touch handlers over an event sequence,
from the initial state. -/
def run3D {n : ℕ} (dist : Pos → Pos → ℚ) (hitTest : Pos → Option (Fin n))
    (events : List TouchEvent) : Ctrl3DState n :=
  events.foldl (step3D dist hitTest) {}

/-- Display mode selected before the scene is built
(`currentMode === 'ar'` or `'3d'`). -/
inductive DisplayMode where
  | ar
  | desktop3d
deriving DecidableEq, Repr

/-- Mode-dependent base radius of the fallback layout in `createGraph`
(line 238): `0.15` in AR mode, `15` in desktop 3D mode. -/
def baseRadius : DisplayMode → ℚ
  | DisplayMode.ar => 3/20
  | DisplayMode.desktop3d => 15

/-- A 3D position with rational coordinates. -/
structure Vec3 where
  x : ℚ
  y : ℚ
  z : ℚ
deriving DecidableEq, Repr

/-- Model of the node placement of `createGraph` (lines 241–264).  The
angle `(index / entities.length) * Math.PI * 2` is represented by its
turn fraction `i / n`; `cosF` and `sinF` abstract `Math.cos` and
`Math.sin` applied to `2π` times that fraction, and `randF i` abstracts
the `Math.random()` call made for entity `i` (a value in `[0, 1)`). -/
def layoutPosition (cosF sinF : ℚ → ℚ) (randF : ℕ → ℚ)
    (mode : DisplayMode) (n i : ℕ) : Vec3 :=
  let turn : ℚ := (i : ℚ) / (n : ℚ)
  let tier : ℕ := i / 6
  let r : ℚ := baseRadius mode * (1 + (tier : ℚ) * (3/10))
  { x := cosF turn * r
    y := (randF i - 1/2) * baseRadius mode * (1/2)
    z := sinF turn * r }

/-- State of the graph group's uniform scale together with the pinch
bookkeeping (`pinchStartScale` in `handleTouchStart`, `initialScale` in
`setup3DControls`). -/
structure ZoomState where
  scale : ℚ
  pinchStartScale : ℚ
deriving DecidableEq, Repr

/-- Scale-affecting operations of `ar-graph.js`:
  * `pinchStart` — a two-finger `touchstart` records the current scale
    (`handleTouchStart` lines 335–342, `setup3DControls` lines 491–496);
  * `pinchMove f` — a two-finger `touchmove` with distance ratio `f` sets
    the scale to the clamped product (`handleTouchMove` lines 368–384,
    `setup3DControls` lines 508–523);
  * `zoomIn` / `zoomOut` — the AR-mode buttons multiply by `1.2` / `0.8`
    and clamp (lines 730–746);
  * `reset` — `resetView` and the AR branch of `createGraph` set the
    scale back to `1` (lines 711–718, 310–312). -/
inductive ZoomOp where
  | pinchStart
  | pinchMove (factor : ℚ)
  | zoomIn
  | zoomOut
  | reset
deriving DecidableEq, Repr

/-- One scale-affecting step. -/
def stepZoom (s : ZoomState) : ZoomOp → ZoomState
  | ZoomOp.pinchStart => ⟨s.scale, s.scale⟩
  | ZoomOp.pinchMove f => ⟨clampScale (s.pinchStartScale * f), s.pinchStartScale⟩
  | ZoomOp.zoomIn => ⟨clampScale (s.scale * (6/5)), s.pinchStartScale⟩
  | ZoomOp.zoomOut => ⟨clampScale (s.scale * (4/5)), s.pinchStartScale⟩
  | ZoomOp.reset => ⟨1, s.pinchStartScale⟩

/-- Initial zoom state: a fresh `THREE.Group` has scale `1`. -/
def initZoomState : ZoomState := ⟨1, 1⟩

/-- Run of the scale-affecting operations from the initial state. -/
def runZoom (ops : List ZoomOp) : ZoomState :=
  ops.foldl stepZoom initZoomState

end ArGraph

namespace KG

/-- Example input of the specification's §8: one document with two chunks,
no relationships. -/
def exEntities : List Entity :=
  [ { id := "d1", type := "Document", label := some "Doc One" },
    { id := "c1", type := "Chunk",
      properties := some [("document_id", JsValue.str "d1"), ("chunk_index", JsValue.num 0)] },
    { id := "c2", type := "Chunk",
      properties := some [("document_id", JsValue.str "d1"), ("chunk_index", JsValue.num 1)] } ]

/-- Example graph data of the specification's §8. -/
def exGraphData : GraphData :=
  { entities := exEntities, relationships := [] }

/-- Graph data with a single relationship whose target id does not match
any entity. -/
def exDanglingData : GraphData :=
  { entities := [{ id := "d1", type := "Document" }],
    relationships := [Rel.mk "d1" "ghost" (some "connects")] }

/-- A 300-character string used as a long property value. -/
def exLongString : String := String.mk (List.replicate 300 'a')

/-- A node whose only property is a long string value. -/
def exLongNode : Entity :=
  { id := "n1", type := "Chunk", label := some "L",
    properties := some [("text", JsValue.str exLongString)] }

end KG

namespace ArGraph

/-- Hit-test fixture over a single node: the node lies under screen point
`(5, 5)` and nowhere else. -/
def exHitTest : Pos → Option (Fin 1) :=
  fun p => if p = ((5 : ℚ), (5 : ℚ)) then some 0 else none

/-- Distance fixture (the pinch distances play no role in selection). -/
def exDist : Pos → Pos → ℚ :=
  fun _ _ => 10

/-- A pinch touch sequence: two simultaneously active contact points, the
first lifting at `(0, 0)` while one touch remains, the second lifting
alone at `(5, 5)`.  No node lies under the initial contact point. -/
def exPinchEvents : List TouchEvent :=
  [ TouchEvent.touchstart [((0 : ℚ), (0 : ℚ)), ((10 : ℚ), (10 : ℚ))],
    TouchEvent.touchend 1 [((0 : ℚ), (0 : ℚ))],
    TouchEvent.touchend 0 [((5 : ℚ), (5 : ℚ))] ]

end ArGraph

namespace ArGraph

/-- Every clamped scale lies in the closed range `[0.1, 5]`. -/
lemma clampScale_range (x : ℚ) : 1/10 ≤ clampScale x ∧ clampScale x ≤ 5 := by
  refine ⟨le_max_left _ _, max_le (by norm_num) (min_le_left _ _)⟩

/-- One zoom step keeps the scale inside `[0.1, 5]`. -/
lemma stepZoom_range (s : ZoomState) (op : ZoomOp)
    (h : 1/10 ≤ s.scale ∧ s.scale ≤ 5) :
    1/10 ≤ (stepZoom s op).scale ∧ (stepZoom s op).scale ≤ 5 := by
  cases op with
  | pinchStart => exact h
  | pinchMove f => exact clampScale_range _
  | zoomIn => exact clampScale_range _
  | zoomOut => exact clampScale_range _
  | reset => exact ⟨by norm_num [stepZoom], by norm_num [stepZoom]⟩

/-- Folding zoom steps keeps the scale inside `[0.1, 5]`. -/
lemma foldZoom_range (ops : List ZoomOp) (s : ZoomState)
    (h : 1/10 ≤ s.scale ∧ s.scale ≤ 5) :
    1/10 ≤ (ops.foldl stepZoom s).scale ∧ (ops.foldl stepZoom s).scale ≤ 5 := by
  induction ops generalizing s with
  | nil => exact h
  | cons op rest ih => exact ih _ (stepZoom_range s op h)

end ArGraph

/-- C10.  The graph group's uniform scale factor always stays within the
closed range `[0.1, 5]`: it starts at `1`, every pinch-zoom update and
every AR zoom-in/zoom-out button press clamps its update into `[0.1, 5]`,
and reset sets it back to `1`, so no sequence of these operations can
drive the scale outside the range. -/
theorem c10_scale_always_in_range (ops : List ArGraph.ZoomOp) :
    ArGraph.initZoomState.scale = 1
    ∧ 1/10 ≤ (ArGraph.runZoom ops).scale
    ∧ (ArGraph.runZoom ops).scale ≤ 5 :=
  ⟨rfl, ArGraph.foldZoom_range ops ArGraph.initZoomState (by norm_num [ArGraph.initZoomState])⟩

/-- C9.  In the fallback layout of `createGraph`, entity `i` of `n` is
placed at angle `2π·i/n` (represented by its turn fraction `i/n`) on a
circle of radius `baseRadius·(1 + 0.3·⌊i/6⌋)` — `x` and `z` are the cosine
and sine of that angle times that radius — with a vertical jitter of
magnitude at most a quarter of the base radius, and the AR base radius is
smaller than the desktop 3D one. -/
theorem c9_fallback_layout (cosF sinF : ℚ → ℚ) (randF : ℕ → ℚ)
    (hrand : ∀ k, 0 ≤ randF k ∧ randF k < 1)
    (mode : ArGraph.DisplayMode) (n i : ℕ) :
    (ArGraph.layoutPosition cosF sinF randF mode n i).x
        = cosF ((i : ℚ) / (n : ℚ))
            * (ArGraph.baseRadius mode * (1 + ((i / 6 : ℕ) : ℚ) * (3/10)))
    ∧ (ArGraph.layoutPosition cosF sinF randF mode n i).z
        = sinF ((i : ℚ) / (n : ℚ))
            * (ArGraph.baseRadius mode * (1 + ((i / 6 : ℕ) : ℚ) * (3/10)))
    ∧ |(ArGraph.layoutPosition cosF sinF randF mode n i).y|
        ≤ ArGraph.baseRadius mode / 4
    ∧ ArGraph.baseRadius ArGraph.DisplayMode.ar
        < ArGraph.baseRadius ArGraph.DisplayMode.desktop3d := by
  obtain ⟨h0, h1⟩ := hrand i
  have hR : (0 : ℚ) ≤ ArGraph.baseRadius mode := by
    cases mode <;> norm_num [ArGraph.baseRadius]
  refine ⟨rfl, rfl, ?_, by norm_num [ArGraph.baseRadius]⟩
  have habs : |randF i - 1/2| ≤ 1/2 := abs_le.mpr ⟨by linarith, by linarith⟩
  have hy : (ArGraph.layoutPosition cosF sinF randF mode n i).y
      = (randF i - 1/2) * ArGraph.baseRadius mode * (1/2) := rfl
  rw [hy, abs_mul, abs_mul, abs_of_nonneg hR, abs_of_nonneg (by norm_num : (0:ℚ) ≤ 1/2)]
  have h2 : |randF i - 1/2| * ArGraph.baseRadius mode ≤ (1/2) * ArGraph.baseRadius mode :=
    mul_le_mul_of_nonneg_right habs hR
  have h3 : |randF i - 1/2| * ArGraph.baseRadius mode * (1/2)
      ≤ (1/2) * ArGraph.baseRadius mode * (1/2) :=
    mul_le_mul_of_nonneg_right h2 (by norm_num)
  calc |randF i - 1/2| * ArGraph.baseRadius mode * (1/2)
      ≤ (1/2) * ArGraph.baseRadius mode * (1/2) := h3
    _ = ArGraph.baseRadius mode / 4 := by ring

/-- Witness for C9 at concrete trigonometry, randomness, mode and index. -/
theorem c9_fallback_layout_witness :
    (∀ k, 0 ≤ (fun _ : ℕ => (1 : ℚ)/2) k ∧ (fun _ : ℕ => (1 : ℚ)/2) k < 1)
    ∧ ((ArGraph.layoutPosition id id (fun _ => 1/2) ArGraph.DisplayMode.ar 3 1).x
          = id ((1 : ℚ) / (3 : ℚ))
              * (ArGraph.baseRadius ArGraph.DisplayMode.ar * (1 + ((1 / 6 : ℕ) : ℚ) * (3/10)))
        ∧ (ArGraph.layoutPosition id id (fun _ => 1/2) ArGraph.DisplayMode.ar 3 1).z
          = id ((1 : ℚ) / (3 : ℚ))
              * (ArGraph.baseRadius ArGraph.DisplayMode.ar * (1 + ((1 / 6 : ℕ) : ℚ) * (3/10)))
        ∧ |(ArGraph.layoutPosition id id (fun _ => 1/2) ArGraph.DisplayMode.ar 3 1).y|
          ≤ ArGraph.baseRadius ArGraph.DisplayMode.ar / 4
        ∧ ArGraph.baseRadius ArGraph.DisplayMode.ar
          < ArGraph.baseRadius ArGraph.DisplayMode.desktop3d) :=
  ⟨fun _ => by norm_num,
    c9_fallback_layout id id (fun _ => 1/2) (fun _ => by norm_num) ArGraph.DisplayMode.ar 3 1⟩

/-- C6 counterexample.  The claim states that a touch sequence in which
two contact points were simultaneously active is classified as pinch and
never selects a node, and that a tap selects the node under the initial
contact point.  Running the `setup3DControls` touch handlers on the
concrete pinch sequence `exPinchEvents` — two simultaneous touches at
`(0,0)` and `(10,10)`, then the fingers lifting one after the other —
selects node `0`, the node under the final lift position `(5,5)`, even
though no node lies under the initial contact point `(0,0)`. -/
theorem c6_counterexample :
    (ArGraph.run3D ArGraph.exDist ArGraph.exHitTest ArGraph.exPinchEvents).selected = some 0
    ∧ ArGraph.exHitTest ((0 : ℚ), (0 : ℚ)) = none
    ∧ ArGraph.exPinchEvents.head? = some (ArGraph.TouchEvent.touchstart
        [((0 : ℚ), (0 : ℚ)), ((10 : ℚ), (10 : ℚ))]) := by
  refine ⟨by decide, by decide, rfl⟩

/-- C6 (amended).  The `setup3DControls` touch handlers apply no movement
threshold, duration check or contact-point history test: a `touchend`
event that leaves no active touches and carries exactly one changed touch
always raycasts at that touch's final position, selecting the node found
there if any and otherwise leaving the selection unchanged — irrespective
of the preceding events of the sequence (so drags and pinches whose last
finger lifts alone select just like taps, and the position used is the
final one, not the initial contact point). -/
theorem c6_touchend_selection (n : ℕ) (dist : ArGraph.Pos → ArGraph.Pos → ℚ)
    (hitTest : ArGraph.Pos → Option (Fin n))
    (events : List ArGraph.TouchEvent) (p : ArGraph.Pos) :
    (ArGraph.run3D dist hitTest
        (events ++ [ArGraph.TouchEvent.touchend 0 [p]])).selected
      = match hitTest p with
        | some i => some i
        | none => (ArGraph.run3D dist hitTest events).selected := by
  unfold ArGraph.run3D
  rw [List.foldl_append]
  cases h : hitTest p <;> simp [ArGraph.step3D, h]

/-- C7.  A link whose source id or target id does not resolve to an
existing node is silently dropped by `createGraph`'s edge loop: it
contributes no edge, every produced edge comes from a link with both
endpoints resolving, and the edge construction is total (no error is
raised or reported). -/
theorem c7_dangling_link_dropped (data : KG.GraphData) (l : KG.Rel)
    (hbad : l.source ∉ ArGraph.nodeIds data.entities
        ∨ l.target ∉ ArGraph.nodeIds data.entities) :
    l ∉ ArGraph.createGraphEdges data
    ∧ ∀ l' ∈ ArGraph.createGraphEdges data,
        l' ∈ ArGraph.createGraphLinks data
        ∧ l'.source ∈ ArGraph.nodeIds data.entities
        ∧ l'.target ∈ ArGraph.nodeIds data.entities := by
  constructor
  · intro hmem
    rw [ArGraph.createGraphEdges, List.mem_filter] at hmem
    have h2 := hmem.2
    simp only [Bool.and_eq_true, List.elem_iff] at h2
    rcases hbad with hb | hb
    · exact hb h2.1
    · exact hb h2.2
  · intro l' hl'
    rw [ArGraph.createGraphEdges, List.mem_filter] at hl'
    have h2 := hl'.2
    simp only [Bool.and_eq_true, List.elem_iff] at h2
    exact ⟨hl'.1, h2.1, h2.2⟩

namespace ArGraph

/-- Initial selection state satisfies the strong invariant. -/
lemma selInv_init (n : ℕ) : SelInv (initSelState n) := by
  intro j
  simp [initSelState, SelInv]

/-- Selecting a node preserves the strong invariant. -/
lemma selInv_onNodeSelect {n : ℕ} (s : SelState n) (h : SelInv s) (i : Fin n) :
    SelInv (onNodeSelect s i) := by
  intro j
  have hsel : (onNodeSelect s i).selected = some i := rfl
  cases hs : s.selected with
  | none =>
    have hv : (onNodeSelect s i).visual = Function.update s.visual i highlightVisual := by
      simp [onNodeSelect, hs]
    rw [hv, hsel]
    by_cases hji : j = i
    · subst hji
      simp [Function.update_same]
    · rw [Function.update_noteq hji, if_neg (by simpa using fun hij => hji hij.symm)]
      have := h j
      rw [hs] at this
      simpa using this
  | some k =>
    have hv : (onNodeSelect s i).visual
        = Function.update (Function.update s.visual k baselineVisual) i highlightVisual := by
      simp [onNodeSelect, hs]
    rw [hv, hsel]
    by_cases hji : j = i
    · subst hji
      simp [Function.update_same]
    · rw [Function.update_noteq hji, if_neg (by simpa using fun hij => hji hij.symm)]
      by_cases hjk : j = k
      · subst hjk
        simp [Function.update_same]
      · rw [Function.update_noteq hjk]
        have := h j
        rw [hs, if_neg (by simpa using fun hkj => hjk hkj.symm)] at this
        exact this

/-- Resetting preserves the strong invariant. -/
lemma selInv_resetView {n : ℕ} (s : SelState n) (h : SelInv s) :
    SelInv (resetView s) := by
  intro j
  cases hs : s.selected with
  | none =>
    have hr : resetView s = s := by simp [resetView, hs]
    rw [hr, hs]
    have := h j
    rw [hs] at this
    exact this
  | some k =>
    have hr : resetView s = ⟨Function.update s.visual k baselineVisual, none⟩ := by
      simp [resetView, hs]
    rw [hr]
    simp only [if_neg (by simp : ¬(none = some j))]
    by_cases hjk : j = k
    · subst hjk
      simp [Function.update_same]
    · rw [Function.update_noteq hjk]
      have := h j
      rw [hs, if_neg (by simpa using fun hkj => hjk hkj.symm)] at this
      exact this

/-- Every step of the selection component preserves the strong invariant. -/
lemma selInv_step {n : ℕ} (s : SelState n) (h : SelInv s) (op : SelOp n) :
    SelInv (stepSel s op) := by
  cases op with
  | select i => exact selInv_onNodeSelect s h i
  | reset => exact selInv_resetView s h

/-- Folding selection steps preserves the strong invariant. -/
lemma selInv_foldl {n : ℕ} (ops : List (SelOp n)) (s : SelState n) (h : SelInv s) :
    SelInv (ops.foldl stepSel s) := by
  induction ops generalizing s with
  | nil => exact h
  | cons op rest ih => exact ih _ (selInv_step s h op)

/-- Every reachable selection state satisfies the strong invariant. -/
lemma selInv_run (n : ℕ) (ops : List (SelOp n)) : SelInv (runSel n ops) :=
  selInv_foldl ops _ (selInv_init n)

/-- Baseline visuals are not highlighted. -/
lemma isHighlighted_baseline : isHighlighted baselineVisual = false := by
  simp only [isHighlighted, baselineVisual]
  norm_num

/-- The highlight visual is highlighted. -/
lemma isHighlighted_highlight : isHighlighted highlightVisual = true := by
  simp only [isHighlighted, baselineVisual, highlightVisual]
  norm_num

end ArGraph

namespace ForceGraph

/-- The reachable scale assignments of the force-graph viewer: all ones,
or all ones with a single node at `1.5`. -/
lemma runHl_shape (n : ℕ) (ops : List (HlOp n)) :
    runHl n ops = (fun _ => 1)
    ∨ ∃ i, runHl n ops = Function.update (fun _ => (1 : ℚ)) i (3/2) := by
  have main : ∀ (l : List (HlOp n)) (s : Fin n → ℚ),
      (s = (fun _ => 1) ∨ ∃ i, s = Function.update (fun _ => (1 : ℚ)) i (3/2)) →
      (l.foldl stepHl s = (fun _ => 1)
        ∨ ∃ i, l.foldl stepHl s = Function.update (fun _ => (1 : ℚ)) i (3/2)) := by
    intro l
    induction l with
    | nil => intro s h; exact h
    | cons op rest ih =>
      intro s _
      refine ih _ ?_
      cases op with
      | highlight i => exact Or.inr ⟨i, rfl⟩
      | reset => exact Or.inl rfl
  exact main ops _ (Or.inl rfl)

end ForceGraph

/-- A duplicate-free list all of whose elements equal `c` has at most one
element. -/
lemma length_le_one_of_nodup_of_all_eq {α : Type _} (c : α) (l : List α)
    (hnd : l.Nodup) (hall : ∀ a ∈ l, a = c) : l.length ≤ 1 := by
  cases l with
  | nil => simp
  | cons a t =>
    cases t with
    | nil => simp
    | cons b t' =>
      exfalso
      have ha := hall a (by simp)
      have hb := hall b (by simp)
      rw [List.nodup_cons] at hnd
      exact hnd.1 (by simp [ha.trans hb.symm])

/-- C3.  At every reachable state of the selection component, at most one
node is in the highlighted visual state — raised emissive intensity and
enlarged scale in the AR/3D viewer (`onNodeSelect` / `resetView`), and
enlarged scale in the force-graph viewer (`highlightNode` / `resetView` of
`part_000`); every operation (selecting a node, selecting a different
node, resetting) preserves this. -/
theorem c3_at_most_one_highlighted (n : ℕ) (ops : List (ArGraph.SelOp n))
    (ops2 : List (ForceGraph.HlOp n)) :
    ((List.finRange n).filter
        (fun j => ArGraph.isHighlighted ((ArGraph.runSel n ops).visual j))).length ≤ 1
    ∧ ((List.finRange n).filter
        (fun j => decide (1 < ForceGraph.runHl n ops2 j))).length ≤ 1 := by
  constructor
  · have hinv := ArGraph.selInv_run n ops
    cases hsel : (ArGraph.runSel n ops).selected with
    | none =>
      have hempty : ((List.finRange n).filter
          (fun j => ArGraph.isHighlighted ((ArGraph.runSel n ops).visual j))) = [] := by
        apply List.filter_eq_nil_iff.mpr
        intro j _
        have := hinv j
        rw [hsel] at this
        simp only [reduceCtorEq, if_false] at this
        rw [this, ArGraph.isHighlighted_baseline]
        simp
      rw [hempty]
      simp
    | some i =>
      apply length_le_one_of_nodup_of_all_eq i
      · exact (List.nodup_finRange n).filter _
      · intro a ha
        rw [List.mem_filter] at ha
        by_contra hai
        have := hinv a
        rw [hsel, if_neg (by simpa using fun h => hai h.symm)] at this
        rw [this, ArGraph.isHighlighted_baseline] at ha
        exact absurd ha.2 (by simp)
  · rcases ForceGraph.runHl_shape n ops2 with h | ⟨i, h⟩
    · have hempty : ((List.finRange n).filter
          (fun j => decide (1 < ForceGraph.runHl n ops2 j))) = [] := by
        apply List.filter_eq_nil_iff.mpr
        intro j _
        rw [h]
        simp
      rw [hempty]
      simp
    · apply length_le_one_of_nodup_of_all_eq i
      · exact (List.nodup_finRange n).filter _
      · intro a ha
        rw [List.mem_filter] at ha
        by_contra hai
        rw [h] at ha
        rw [Function.update_noteq hai] at ha
        exact absurd ha.2 (by simp)

/-- C4.  From any reachable state, selecting node `A` and then a different
node `B` leaves exactly node `B` in the highlighted visual state, with
`A`'s emissive intensity and scale reverted to their baseline values and
`selectedNode` pointing at `B`. -/
theorem c4_select_A_then_B (n : ℕ) (ops : List (ArGraph.SelOp n)) (A B : Fin n)
    (hAB : A ≠ B) :
    ((ArGraph.onNodeSelect (ArGraph.onNodeSelect (ArGraph.runSel n ops) A) B).selected
        = some B)
    ∧ (∀ j, (ArGraph.onNodeSelect (ArGraph.onNodeSelect (ArGraph.runSel n ops) A) B).visual j
        = if j = B then ArGraph.highlightVisual else ArGraph.baselineVisual)
    ∧ ((ArGraph.onNodeSelect (ArGraph.onNodeSelect (ArGraph.runSel n ops) A) B).visual A
        = ArGraph.baselineVisual) := by
  have h1 := ArGraph.selInv_onNodeSelect _ (ArGraph.selInv_run n ops) A
  have h2 := ArGraph.selInv_onNodeSelect _ h1 B
  have hvis : ∀ j, (ArGraph.onNodeSelect (ArGraph.onNodeSelect (ArGraph.runSel n ops) A) B).visual j
      = if j = B then ArGraph.highlightVisual else ArGraph.baselineVisual := by
    intro j
    have := h2 j
    rw [show (ArGraph.onNodeSelect (ArGraph.onNodeSelect (ArGraph.runSel n ops) A) B).selected
        = some B from rfl] at this
    rw [this]
    by_cases hjB : j = B
    · rw [if_pos (by simp [hjB]), if_pos hjB]
    · rw [if_neg (by simpa using fun h => hjB h.symm), if_neg hjB]
  exact ⟨rfl, hvis, by rw [hvis A, if_neg hAB]⟩

/-- Witness for C4 on two concrete nodes of a two-node scene. -/
theorem c4_select_A_then_B_witness :
    ((0 : Fin 2) ≠ 1)
    ∧ (((ArGraph.onNodeSelect (ArGraph.onNodeSelect (ArGraph.runSel 2 []) 0) 1).selected
          = some 1)
        ∧ (∀ j, (ArGraph.onNodeSelect (ArGraph.onNodeSelect (ArGraph.runSel 2 []) 0) 1).visual j
            = if j = 1 then ArGraph.highlightVisual else ArGraph.baselineVisual)
        ∧ ((ArGraph.onNodeSelect (ArGraph.onNodeSelect (ArGraph.runSel 2 []) 0) 1).visual 0
            = ArGraph.baselineVisual)) :=
  ⟨by decide, c4_select_A_then_B 2 [] 0 1 (by decide)⟩

/-- C5.  From any reachable state, selecting a node `i` and then
performing the explicit reset returns the selection component to Idle: no
node remains highlighted (every node's visual, including `i`'s emissive
intensity and scale, is back at baseline) and `selectedNode` is cleared. -/
theorem c5_select_then_reset (n : ℕ) (ops : List (ArGraph.SelOp n)) (i : Fin n) :
    ((ArGraph.resetView (ArGraph.onNodeSelect (ArGraph.runSel n ops) i)).selected = none)
    ∧ ∀ j, (ArGraph.resetView (ArGraph.onNodeSelect (ArGraph.runSel n ops) i)).visual j
        = ArGraph.baselineVisual := by
  have h1 := ArGraph.selInv_onNodeSelect _ (ArGraph.selInv_run n ops) i
  have h2 := ArGraph.selInv_resetView _ h1
  have hsel : (ArGraph.resetView (ArGraph.onNodeSelect (ArGraph.runSel n ops) i)).selected
      = none := rfl
  refine ⟨hsel, fun j => ?_⟩
  have := h2 j
  rw [hsel] at this
  simpa using this

namespace ForceGraph

/-- Every link of the first synthesis loop carries type `contains`. -/
lemma containsLinks_type (es : List KG.Entity) :
    ∀ l ∈ containsLinks es, l.type = "contains" := by
  intro l hl
  rw [containsLinks, List.mem_filterMap] at hl
  obtain ⟨e, _, he⟩ := hl
  simp only [Option.map_eq_some'] at he
  obtain ⟨d, _, rfl⟩ := he
  rfl

/-- Every consecutive-chunk link carries type `next`. -/
lemma consecutiveNextLinks_type :
    ∀ g : List KG.Entity, ∀ l ∈ consecutiveNextLinks g, l.type = "next"
  | [] => by simp [consecutiveNextLinks]
  | [a] => by simp [consecutiveNextLinks]
  | a :: b :: rest => by
    intro l hl
    rw [consecutiveNextLinks] at hl
    rcases List.mem_cons.mp hl with rfl | h
    · rfl
    · exact consecutiveNextLinks_type (b :: rest) l h

/-- Every synthesised chunk-chain link carries type `next`. -/
lemma nextLinks_type (es : List KG.Entity) :
    ∀ l ∈ nextLinks es, l.type = "next" := by
  intro l hl
  rw [nextLinks, List.mem_flatMap] at hl
  obtain ⟨d, _, hld⟩ := hl
  exact consecutiveNextLinks_type _ l hld

/-- A group of `count` chunks yields `count - 1` consecutive links. -/
lemma consecutiveNextLinks_length :
    ∀ g : List KG.Entity, (consecutiveNextLinks g).length = g.length - 1
  | [] => rfl
  | [a] => rfl
  | a :: b :: rest => by
    have ih := consecutiveNextLinks_length (b :: rest)
    rw [consecutiveNextLinks, List.length_cons, ih]
    simp

/-- The consecutive links connect each element of the list to its
successor: they are exactly the zip of the list with its own tail. -/
lemma consecutiveNextLinks_eq_zip :
    ∀ g : List KG.Entity,
      consecutiveNextLinks g
        = (g.zip g.tail).map fun ab => Link.mk ab.1.id ab.2.id "next"
  | [] => rfl
  | [a] => rfl
  | a :: b :: rest => by
    have ih := consecutiveNextLinks_eq_zip (b :: rest)
    rw [consecutiveNextLinks, ih]
    rfl

/-- One `contains` link is produced per entity with a truthy
`document_id`, so the counts agree. -/
lemma containsLinks_length :
    ∀ es : List KG.Entity,
      (containsLinks es).length
        = (es.filter fun e => (KG.entityDocId e).isSome).length
  | [] => rfl
  | e :: es => by
    have ih := containsLinks_length es
    cases hd : KG.entityDocId e with
    | none =>
      rw [containsLinks, List.filterMap_cons, List.filter_cons]
      simp only [hd, Option.map_none', Option.isSome_none]
      rw [← containsLinks]
      simpa using ih
    | some d =>
      rw [containsLinks, List.filterMap_cons, List.filter_cons]
      simp only [hd, Option.map_some', Option.isSome_some]
      rw [← containsLinks]
      simpa using ih

/-- With no explicit relationships, `transformAndInitGraph` synthesises
the `contains` links followed by the `next` links. -/
lemma transformLinks_of_no_relationships (data : KG.GraphData)
    (hrel : data.relationships = []) :
    transformLinks data = containsLinks data.entities ++ nextLinks data.entities := by
  rw [transformLinks, hrel]
  simp

end ForceGraph

/-- C1 (amended).  For every input whose relationships array is empty or
absent, the force-graph viewer's adapter (`transformAndInitGraph` of
`part_000`) synthesises exactly the per-document chunk chains as its
`next` links: for the group of `Chunk` entities sharing any
`document_id` `d`, the sorted group is a permutation of the group ordered
non-decreasingly by `chunk_index` (missing treated as `0`), the group's
`next` links connect exactly the consecutive pairs of that sorted order,
and there are exactly `count - 1` of them for a group of `count` chunks.
The AR viewer's `createGraph` synthesises no `next` links at all — see
the counterexample. -/
theorem c1_next_links_chain (data : KG.GraphData)
    (hrel : data.relationships = []) (d : String) :
    ((ForceGraph.transformLinks data).filter (fun l => l.type = "next")
        = ForceGraph.nextLinks data.entities)
    ∧ (ForceGraph.sortChunks (ForceGraph.chunkGroup data.entities d)).Perm
        (ForceGraph.chunkGroup data.entities d)
    ∧ List.Sorted ForceGraph.chunkLE
        (ForceGraph.sortChunks (ForceGraph.chunkGroup data.entities d))
    ∧ (ForceGraph.consecutiveNextLinks
          (ForceGraph.sortChunks (ForceGraph.chunkGroup data.entities d))
        = ((ForceGraph.sortChunks (ForceGraph.chunkGroup data.entities d)).zip
            (ForceGraph.sortChunks (ForceGraph.chunkGroup data.entities d)).tail).map
          fun ab => ForceGraph.Link.mk ab.1.id ab.2.id "next")
    ∧ ((ForceGraph.consecutiveNextLinks
          (ForceGraph.sortChunks (ForceGraph.chunkGroup data.entities d))).length
        = (ForceGraph.chunkGroup data.entities d).length - 1) := by
  refine ⟨?_, List.perm_insertionSort _ _, List.sorted_insertionSort _ _,
    ForceGraph.consecutiveNextLinks_eq_zip _, ?_⟩
  · rw [ForceGraph.transformLinks_of_no_relationships data hrel, List.filter_append]
    have h1 : (ForceGraph.containsLinks data.entities).filter
        (fun l => l.type = "next") = [] := by
      apply List.filter_eq_nil_iff.mpr
      intro l hl
      have := ForceGraph.containsLinks_type data.entities l hl
      simp [this]
    have h2 : (ForceGraph.nextLinks data.entities).filter
        (fun l => l.type = "next") = ForceGraph.nextLinks data.entities := by
      apply List.filter_eq_self.mpr
      intro l hl
      have := ForceGraph.nextLinks_type data.entities l hl
      simp [this]
    rw [h1, h2, List.nil_append]
  · rw [ForceGraph.consecutiveNextLinks_length, ForceGraph.sortChunks,
      (List.perm_insertionSort ForceGraph.chunkLE _).length_eq]

/-- Witness for C1 on the specification's §8 example (one document, two
chunks, no relationships). -/
theorem c1_next_links_chain_witness :
    (KG.exGraphData.relationships = [])
    ∧ (((ForceGraph.transformLinks KG.exGraphData).filter (fun l => l.type = "next")
          = ForceGraph.nextLinks KG.exGraphData.entities)
        ∧ (ForceGraph.sortChunks (ForceGraph.chunkGroup KG.exGraphData.entities "d1")).Perm
            (ForceGraph.chunkGroup KG.exGraphData.entities "d1")
        ∧ List.Sorted ForceGraph.chunkLE
            (ForceGraph.sortChunks (ForceGraph.chunkGroup KG.exGraphData.entities "d1"))
        ∧ (ForceGraph.consecutiveNextLinks
              (ForceGraph.sortChunks (ForceGraph.chunkGroup KG.exGraphData.entities "d1"))
            = ((ForceGraph.sortChunks (ForceGraph.chunkGroup KG.exGraphData.entities "d1")).zip
                (ForceGraph.sortChunks
                  (ForceGraph.chunkGroup KG.exGraphData.entities "d1")).tail).map
              fun ab => ForceGraph.Link.mk ab.1.id ab.2.id "next")
        ∧ ((ForceGraph.consecutiveNextLinks
              (ForceGraph.sortChunks (ForceGraph.chunkGroup KG.exGraphData.entities "d1"))).length
            = (ForceGraph.chunkGroup KG.exGraphData.entities "d1").length - 1)) :=
  ⟨rfl, c1_next_links_chain KG.exGraphData rfl "d1"⟩

/-- C1 counterexample.  On the specification's §8 example — a document
`d1` with chunks `c1`, `c2` (indices 0 and 1), no relationships — the AR
viewer's `createGraph` (cited by the claim) produces only the two
document-containment links: the chunk group of `d1` has two chunks, yet no
synthesised link connects `c1` and `c2` in either direction, so there is
no path of `count - 1 = 1` `next` links through the group. -/
theorem c1_counterexample :
    ArGraph.createGraphLinks KG.exGraphData
        = [KG.Rel.mk "d1" "c1" none, KG.Rel.mk "d1" "c2" none]
    ∧ (ForceGraph.chunkGroup KG.exGraphData.entities "d1").length = 2
    ∧ ∀ l ∈ ArGraph.createGraphLinks KG.exGraphData,
        ¬(l.source = "c1" ∧ l.target = "c2") ∧ ¬(l.source = "c2" ∧ l.target = "c1") := by
  refine ⟨by decide, by decide, by decide⟩

/-- C2 (amended).  For every input whose relationships array is empty or
absent, the force-graph viewer's adapter (`transformAndInitGraph` of
`part_000`) produces exactly one link of type `contains` per entity with a
truthy `properties.document_id` — with source the document id and target
the entity's id, in entity order — and entities without such a
`document_id` contribute none, so the `contains` links are exactly as many
as the entities carrying a `document_id`.  The AR viewer's `createGraph`
synthesises one structurally identical link per such entity but without
any `type` field — see the counterexample. -/
theorem c2_contains_links (data : KG.GraphData) (hrel : data.relationships = []) :
    ((ForceGraph.transformLinks data).filter (fun l => l.type = "contains")
        = data.entities.filterMap fun e =>
            (KG.entityDocId e).map fun d => ForceGraph.Link.mk d e.id "contains")
    ∧ (((ForceGraph.transformLinks data).filter (fun l => l.type = "contains")).length
        = (data.entities.filter fun e => (KG.entityDocId e).isSome).length) := by
  have h1 : (ForceGraph.transformLinks data).filter (fun l => l.type = "contains")
      = ForceGraph.containsLinks data.entities := by
    rw [ForceGraph.transformLinks_of_no_relationships data hrel, List.filter_append]
    have ha : (ForceGraph.containsLinks data.entities).filter
        (fun l => l.type = "contains") = ForceGraph.containsLinks data.entities := by
      apply List.filter_eq_self.mpr
      intro l hl
      have := ForceGraph.containsLinks_type data.entities l hl
      simp [this]
    have hb : (ForceGraph.nextLinks data.entities).filter
        (fun l => l.type = "contains") = [] := by
      apply List.filter_eq_nil_iff.mpr
      intro l hl
      have := ForceGraph.nextLinks_type data.entities l hl
      simp [this]
    rw [ha, hb, List.append_nil]
  exact ⟨h1, by rw [h1, ForceGraph.containsLinks_length]⟩

/-- Witness for C2 on the specification's §8 example. -/
theorem c2_contains_links_witness :
    (KG.exGraphData.relationships = [])
    ∧ (((ForceGraph.transformLinks KG.exGraphData).filter (fun l => l.type = "contains")
          = KG.exGraphData.entities.filterMap fun e =>
              (KG.entityDocId e).map fun d => ForceGraph.Link.mk d e.id "contains")
        ∧ (((ForceGraph.transformLinks KG.exGraphData).filter
              (fun l => l.type = "contains")).length
            = (KG.exGraphData.entities.filter fun e => (KG.entityDocId e).isSome).length)) :=
  ⟨rfl, c2_contains_links KG.exGraphData rfl⟩

/-- C2 counterexample.  On the specification's §8 example, two entities
carry `properties.document_id`, but the AR viewer's `createGraph` (cited
by the claim) produces zero links of type `contains`: its synthesised
links carry no `type` field at all. -/
theorem c2_counterexample :
    ((ArGraph.createGraphLinks KG.exGraphData).filter
        (fun l => l.type = some "contains")) = []
    ∧ (KG.exGraphData.entities.filter fun e => (KG.entityDocId e).isSome).length = 2
    ∧ (ArGraph.createGraphLinks KG.exGraphData).length = 2
    ∧ ∀ l ∈ ArGraph.createGraphLinks KG.exGraphData, l.type = none := by
  refine ⟨by decide, by decide, by decide, by decide⟩

set_option maxRecDepth 4000 in
/-- C8 counterexample.  The claim states that long string property values
are truncated to a fixed character budget with an ellipsis marker.  The
info panel of `part_000` renders the 300-character property value of
`exLongNode` verbatim: the rendered text equals the input string, has
length 300, and consists solely of the letter `a` — no ellipsis marker of
any kind appears, so no truncation to any fixed budget happens. -/
theorem c8_counterexample :
    (ForceGraph.displayNodeInfo KG.exLongNode []).propertyLines
        = [("text", KG.exLongString)]
    ∧ KG.exLongString.length = 300
    ∧ KG.exLongString.toList.all (fun c => c = 'a') = true :=
  ⟨rfl, rfl, rfl⟩

/-- C8 (amended).  For every selected node's entity data, the info panel
of `part_000` produces a display payload containing the type, label and
id, the source document when present, and each entry of `properties`
rendered as a `key: value` pair, where array values are joined with the
separator `", "`, nested object values are serialised to JSON text, and
string values are rendered verbatim at full length (no truncation or
ellipsis is applied). -/
theorem c8_info_panel_payload (node : KG.Entity) (links : List ForceGraph.Link) :
    ((ForceGraph.displayNodeInfo node links).type = node.type)
    ∧ ((ForceGraph.displayNodeInfo node links).id = node.id)
    ∧ ((ForceGraph.displayNodeInfo node links).label = node.label.getD "undefined")
    ∧ (∀ s, node.source_doc = some s → s ≠ "" →
        (ForceGraph.displayNodeInfo node links).source = some s)
    ∧ (node.source_doc = none → (ForceGraph.displayNodeInfo node links).source = none)
    ∧ (∀ ps, node.properties = some ps →
        (ForceGraph.displayNodeInfo node links).propertyLines
          = ps.map fun kv => (kv.1, KG.displayValue kv.2))
    ∧ (∀ xs, KG.displayValue (KG.JsValue.arr xs) = KG.jsArrJoin ", " xs)
    ∧ (∀ fs, KG.displayValue (KG.JsValue.obj fs) = KG.jsonStringify (KG.JsValue.obj fs))
    ∧ (∀ s, KG.displayValue (KG.JsValue.str s) = s) := by
  refine ⟨rfl, rfl, rfl, ?_, ?_, ?_, fun _ => rfl, fun _ => rfl, fun _ => rfl⟩
  · intro s hs hne
    simp [ForceGraph.displayNodeInfo, hs, hne]
  · intro hs
    simp [ForceGraph.displayNodeInfo, hs]
  · intro ps hps
    simp [ForceGraph.displayNodeInfo, hps]

/-- Witness for C8 on the concrete long-string node. -/
theorem c8_info_panel_payload_witness :
    ((ForceGraph.displayNodeInfo KG.exLongNode []).type = KG.exLongNode.type)
    ∧ ((ForceGraph.displayNodeInfo KG.exLongNode []).id = KG.exLongNode.id)
    ∧ ((ForceGraph.displayNodeInfo KG.exLongNode []).label
        = KG.exLongNode.label.getD "undefined")
    ∧ (∀ s, KG.exLongNode.source_doc = some s → s ≠ "" →
        (ForceGraph.displayNodeInfo KG.exLongNode []).source = some s)
    ∧ (KG.exLongNode.source_doc = none →
        (ForceGraph.displayNodeInfo KG.exLongNode []).source = none)
    ∧ (∀ ps, KG.exLongNode.properties = some ps →
        (ForceGraph.displayNodeInfo KG.exLongNode []).propertyLines
          = ps.map fun kv => (kv.1, KG.displayValue kv.2))
    ∧ (∀ xs, KG.displayValue (KG.JsValue.arr xs) = KG.jsArrJoin ", " xs)
    ∧ (∀ fs, KG.displayValue (KG.JsValue.obj fs) = KG.jsonStringify (KG.JsValue.obj fs))
    ∧ (∀ s, KG.displayValue (KG.JsValue.str s) = s) :=
  c8_info_panel_payload KG.exLongNode []

/-- Witness for C7: the `exDanglingData` relationship points at the
non-existent node id `"ghost"` and yields no edge. -/
theorem c7_dangling_link_dropped_witness :
    ((KG.Rel.mk "d1" "ghost" (some "connects")).source
          ∉ ArGraph.nodeIds KG.exDanglingData.entities
        ∨ (KG.Rel.mk "d1" "ghost" (some "connects")).target
          ∉ ArGraph.nodeIds KG.exDanglingData.entities)
    ∧ ((KG.Rel.mk "d1" "ghost" (some "connects")) ∉ ArGraph.createGraphEdges KG.exDanglingData
        ∧ ∀ l' ∈ ArGraph.createGraphEdges KG.exDanglingData,
            l' ∈ ArGraph.createGraphLinks KG.exDanglingData
            ∧ l'.source ∈ ArGraph.nodeIds KG.exDanglingData.entities
            ∧ l'.target ∈ ArGraph.nodeIds KG.exDanglingData.entities) :=
  ⟨Or.inr (by decide),
    c7_dangling_link_dropped KG.exDanglingData (KG.Rel.mk "d1" "ghost" (some "connects"))
      (Or.inr (by decide))⟩

